import Mathlib

/-!
Verification of the bulk-migration engine (migrationService).

Shallow embedding of the PostgreSQL bulk-migration engine
(`services/migrationService.js`, exposed in the repository through
`bulk-migration-frontend/src/hooks/useApi.ts`).  JavaScript runtime
values are modelled by `JSValue`; host functions (`JSON.stringify`,
`JSON.parse` validity, knex query results) are modelled explicitly or
passed as parameters.  Machine integers do not overflow in the modelled
fragment (row counts, batch offsets), so `Nat` is used directly.
-/

namespace BulkMigration

/-- A primitive JavaScript value appearing as an element of a native array.
The engine's array handling (`prepareRowForInsert`, ARRAY branch) only
distinguishes string elements (`typeof v === 'string'`) from the rest;
non-string elements are interpolated with their numeric rendering. -/
inductive JSPrim where
  | pstr : String → JSPrim
  | pnum : Int → JSPrim
  deriving Repr, DecidableEq

/-- A JavaScript runtime value as seen by `prepareRowForInsert`.
`obj ser` models a structured non-array object: `ser` is the outcome of
`JSON.stringify` on it (`none` models a thrown serialization error, e.g.
a BigInt property or a circular reference).  `date iso` models a `Date`
instance carrying its ISO serialization.  `arr` models a native array of
primitive elements.  `jsNull` covers both `null` and `undefined`. -/
inductive JSValue where
  | jsNull : JSValue
  | str : String → JSValue
  | num : Int → JSValue
  | boolV : Bool → JSValue
  | date : String → JSValue
  | obj : Option String → JSValue
  | arr : List JSPrim → JSValue
  deriving Repr, DecidableEq

/-- JavaScript `typeof v === 'object'` for a non-null value: true for plain objects,
arrays and `Date` instances. -/
def isObjectType : JSValue → Bool
  | .date _ => true
  | .obj _ => true
  | .arr _ => true
  | _ => false

/-- JavaScript `value instanceof Date`. -/
def isDate : JSValue → Bool
  | .date _ => true
  | _ => false

/-- One character of a JSON string literal body (escape `"` and `\`). -/
def jsonEscapeChar (c : Char) : String :=
  if c = '"' then "\\\"" else if c = '\\' then "\\\\" else String.singleton c

/-- Host `JSON.stringify` applied to a JavaScript string: a quoted, escaped
JSON string literal. -/
def jsonQuote (s : String) : String :=
  "\"" ++ String.join (s.data.map jsonEscapeChar) ++ "\""

/-- Host `JSON.stringify` of a primitive array element. -/
def jsPrimJson : JSPrim → String
  | .pstr s => jsonQuote s
  | .pnum n => toString n

/-- Host `JSON.stringify` over the modelled value universe.  Returns `none`
when serialization throws (only possible through an `obj` whose stored
serialization is `none`). -/
def jsStringify : JSValue → Option String
  | .jsNull => some "null"
  | .str s => some (jsonQuote s)
  | .num n => some (toString n)
  | .boolV b => some (cond b "true" "false")
  | .date iso => some (jsonQuote iso)
  | .obj ser => ser
  | .arr es => some ("[" ++ ",".intercalate (es.map jsPrimJson) ++ "]")

/-- JavaScript `v.replace(/"/g, '\\"')` on the character list: each `"` becomes the
two characters `\"`; nothing else (in particular no backslash) is escaped. -/
def pgEscapeList : List Char → List Char
  | [] => []
  | c :: cs => if c = '"' then '\\' :: '"' :: pgEscapeList cs else c :: pgEscapeList cs

/-- String-level wrapper for `pgEscapeList`. -/
def pgEscape (s : String) : String :=
  String.mk (pgEscapeList s.data)

/-- One element of the emitted PostgreSQL array literal:
`typeof v === 'string' ? "..." (quotes escaped) : v` (template
interpolation of the raw value otherwise). -/
def pgElem : JSPrim → String
  | .pstr s => "\"" ++ pgEscape s ++ "\""
  | .pnum n => toString n

/-- JavaScript `Array.prototype.join(',')`. -/
def joinComma : List String → String
  | [] => ""
  | [s] => s
  | s :: ss => s ++ "," ++ joinComma ss

/-- The PostgreSQL array literal emitted for a native array value:
`` `{${value.map(...).join(',')}}` ``. -/
def pgArrayLiteral (es : List JSPrim) : String :=
  "\x7b" ++ joinComma (es.map pgElem) ++ "\x7d"

/-- A row is an ordered list of (column name, value) entries, in the
order `Object.entries` yields them. -/
def Row : Type := List (String × JSValue)

/-- Preparation of a single entry of a row, translated from the body of
the `for ... of Object.entries(row)` loop in `prepareRowForInsert`.
`isValidJson` models the host predicate "`JSON.parse` does not throw".
In the ARRAY branch both the `value.startsWith('{')` case and its `else`
case of the source assign `value` unchanged, so they are collapsed. -/
def prepareValue (isValidJson : String → Bool) (jsonColumns arrayColumns : List String)
    (key : String) (value : JSValue) : JSValue :=
  if value = .jsNull then .jsNull
  else if jsonColumns.contains key then
    if isObjectType value then
      match jsStringify value with
      | some s => .str s
      | none => .str "\x7b\x7d"
    else
      match value with
      | .str s => if isValidJson s then .str s else .str (jsonQuote s)
      | v => v
  else if arrayColumns.contains key then
    match value with
    | .arr es => .str (pgArrayLiteral es)
    | v => v
  else if isObjectType value && !isDate value then
    match jsStringify value with
    | some s => .str s
    | none => .jsNull
  else value

/-- Source `prepareRowForInsert(row, jsonColumns, arrayColumns)`: prepares every
entry of the row; the output has one entry per input entry, same keys,
same order (the source builds `prepared[key]` for every `[key, value]`
of `Object.entries(row)`). -/
def prepareRowForInsert (isValidJson : String → Bool) (row : List (String × JSValue))
    (jsonColumns arrayColumns : List String) : List (String × JSValue) :=
  row.map (fun kv => (kv.1, prepareValue isValidJson jsonColumns arrayColumns kv.1 kv.2))

/-!
Section: PostgreSQL array-literal input parsing

Modelled from the spec: the round-trip property of §8 ("A table with an
`ARRAY` of text ... round-trips unchanged") is decided by the *target
PostgreSQL server's* array input syntax, which is external to the
repository.  The parser below follows PostgreSQL's documented rules for
the fragment the engine emits: a literal is `{...}` with comma-separated
elements; a double-quoted element may contain any character, with `\`
escaping the character that follows it; an unquoted element is a
non-empty run of characters containing none of `{ } , " \`.
-/

/-- Parse the body of a double-quoted array element.  The opening quote
has already been consumed; `acc` holds the characters read so far in
reverse.  Returns the element together with the unconsumed remainder, or
`none` when the input ends before a closing quote. -/
def pgParseQuoted : List Char → List Char → Option (String × List Char)
  | [], _ => none
  | c :: rest, acc =>
    if c = '"' then some (String.mk acc.reverse, rest)
    else if c = '\\' then
      match rest with
      | [] => none
      | c2 :: rest2 => pgParseQuoted rest2 (c2 :: acc)
    else pgParseQuoted rest (c :: acc)

/-- Collect an unquoted element: the run of characters up to the next
`,` or `}` (the delimiter is not consumed). -/
def pgTakeUnquoted : List Char → List Char × List Char
  | [] => ([], [])
  | c :: rest =>
    if c = ',' || c = '\x7d' then ([], c :: rest)
    else
      let r := pgTakeUnquoted rest
      (c :: r.1, r.2)

/-- Parse a non-empty comma-separated element list followed by the
closing `}` which must end the input.  `fuel` bounds the number of
elements (one unit is spent per element). -/
def pgParseItems : Nat → List Char → Option (List String)
  | 0, _ => none
  | _, [] => none
  | fuel + 1, c :: rest =>
    if c = '"' then
      match pgParseQuoted rest [] with
      | none => none
      | some (s, rest2) =>
        match rest2 with
        | [] => none
        | d :: rest3 =>
          if d = ',' then (pgParseItems fuel rest3).map (fun l => s :: l)
          else if d = '\x7d' then (if rest3 = [] then some [s] else none)
          else none
    else if c = '\\' || c = '\x7b' || c = ',' || c = '\x7d' then none
    else
      let t := pgTakeUnquoted (c :: rest)
      match t.2 with
      | [] => none
      | d :: rest3 =>
        if d = ',' then (pgParseItems fuel rest3).map (fun l => String.mk t.1 :: l)
        else if d = '\x7d' then (if rest3 = [] then some [String.mk t.1] else none)
        else none

/-- Parse a complete PostgreSQL array literal into its text elements. -/
def pgParseArray (s : String) : Option (List String) :=
  match s.data with
  | [] => none
  | c :: rest =>
    if c = '\x7b' then
      if rest = ['\x7d'] then some []
      else pgParseItems rest.length rest
    else none

/-!
Section: Column classification (Catalog Introspector)
-/

/-- A row of the engine's `information_schema.columns` query
(`getTableColumns`). -/
structure ColumnInfo where
  column_name : String
  data_type : String
  udt_name : String
  is_nullable : String
  deriving Repr, DecidableEq

/-- Source `getJsonColumns(columns)`: names of the columns whose `data_type` or
`udt_name` is `json` or `jsonb`. -/
def getJsonColumns (columns : List ColumnInfo) : List String :=
  (columns.filter (fun col =>
    col.data_type == "json" || col.data_type == "jsonb" ||
    col.udt_name == "json" || col.udt_name == "jsonb")).map (·.column_name)

/-- Source `getArrayColumns(columns)`: names of the columns whose `data_type`
is `ARRAY` or whose `udt_name` starts with an underscore. -/
def getArrayColumns (columns : List ColumnInfo) : List String :=
  (columns.filter (fun col =>
    col.data_type == "ARRAY" || col.udt_name.startsWith "_")).map (·.column_name)

/-!
Section: Type mapping (Schema Replayer)
-/

/-- A row of the detailed column query (`getTableColumnsDetailed`).
Catalog `NULL`s are `none`; `udt_name` is always present. -/
structure ColumnDetail where
  column_name : String
  data_type : String
  udt_name : String
  is_nullable : String
  character_maximum_length : Option Nat
  numeric_precision : Option Nat
  numeric_scale : Option Nat
  column_default : Option String
  deriving Repr, DecidableEq

/-- JavaScript truthiness of a nullable numeric catalog field:
`null`/`undefined` and `0` are falsy. -/
def natTruthy : Option Nat → Bool
  | none => false
  | some n => !(n == 0)

/-- JavaScript `a || d` on a nullable numeric catalog field (JavaScript `||`
returns `d` when `a` is `null`, `undefined` or `0`). -/
def jsOrNat (a : Option Nat) (d : Nat) : Nat :=
  match a with
  | none => d
  | some n => if n = 0 then d else n

/-- JavaScript `a || d` on strings (the empty string is falsy). -/
def jsOrStr (a d : String) : String :=
  if a = "" then d else a

/-- JavaScript `s.replace('_', '')` with a string pattern: JavaScript removes only
the first occurrence. -/
def removeFirstChar (c : Char) : List Char → List Char
  | [] => []
  | x :: xs => if x = c then xs else x :: removeFirstChar c xs

/-- Source `columnToSqlType(col)`: the SQL type the Schema Replayer emits for a
source column, translated case-by-case from the `switch` on
`col.data_type`. -/
def columnToSqlType (col : ColumnDetail) : String :=
  if col.data_type = "character varying" then
    if natTruthy col.character_maximum_length then
      "varchar(" ++ toString (col.character_maximum_length.getD 0) ++ ")"
    else "varchar(255)"
  else if col.data_type = "character" then
    if natTruthy col.character_maximum_length then
      "char(" ++ toString (col.character_maximum_length.getD 0) ++ ")"
    else "char(1)"
  else if col.data_type = "numeric" then
    "numeric(" ++ toString (jsOrNat col.numeric_precision 10) ++ ","
      ++ toString (jsOrNat col.numeric_scale 2) ++ ")"
  else if col.data_type = "integer" then "integer"
  else if col.data_type = "bigint" then "bigint"
  else if col.data_type = "smallint" then "smallint"
  else if col.data_type = "boolean" then "boolean"
  else if col.data_type = "text" then "text"
  else if col.data_type = "json" then "json"
  else if col.data_type = "jsonb" then "jsonb"
  else if col.data_type = "uuid" then "uuid"
  else if col.data_type = "timestamp without time zone" then "timestamp"
  else if col.data_type = "timestamp with time zone" then "timestamptz"
  else if col.data_type = "date" then "date"
  else if col.data_type = "time without time zone" then "time"
  else if col.data_type = "double precision" then "double precision"
  else if col.data_type = "real" then "real"
  else if col.data_type = "bytea" then "bytea"
  else if col.data_type = "ARRAY" then
    String.mk (removeFirstChar '_' col.udt_name.data) ++ "[]"
  else jsOrStr col.udt_name col.data_type

/-!
Section: `session_replication_role` scoping

The destructive blocks run `SET session_replication_role = replica` /
`= DEFAULT` statements on the target connection.  Each statement is an
awaited query that can itself reject; an oracle records which statements
throw.  A statement that throws leaves the role unchanged.
-/

/-- The per-connection `session_replication_role` value. -/
inductive Role where
  | replica : Role
  | dflt : Role
  deriving Repr, DecidableEq

/-- Run one `SET session_replication_role = target` statement: if the
oracle says it throws, the role is unchanged and an exception is
signalled; otherwise the role becomes `target`. -/
def runSet (throws : Bool) (r target : Role) : Role × Bool :=
  if throws then (r, true) else (target, false)

/-- Which awaited statements of one batch iteration of `migrateData`
throw.  `rowFailures` gives the outcome of each per-row fallback insert
(these are individually caught and never affect the role). -/
structure BatchOracle where
  setReplicaThrows : Bool
  insertThrows : Bool
  setDefaultThrows : Bool
  fbSetReplicaThrows : Bool
  rowFailures : List Bool
  fbSetDefaultThrows : Bool
  deriving Repr, DecidableEq

/-- The `catch (insertError)` fallback of `migrateData`: re-enter the
replica session, insert row by row (each insert individually caught),
then restore the role.  No `finally` protects this path in the source. -/
def fallbackPath (o : BatchOracle) (r : Role) : Role × Bool :=
  let s1 := runSet o.fbSetReplicaThrows r .replica
  if s1.2 then (s1.1, true)
  else
    let s2 := runSet o.fbSetDefaultThrows s1.1 .dflt
    (s2.1, s2.2)

/-- One batch iteration of `migrateData`:
`try { SET replica; insert(batch); SET DEFAULT } catch { fallback }`.
Returns the final role and whether an exception escaped. -/
def processBatch (o : BatchOracle) (r0 : Role) : Role × Bool :=
  let s1 := runSet o.setReplicaThrows r0 .replica
  if s1.2 then fallbackPath o s1.1
  else if o.insertThrows then fallbackPath o s1.1
  else
    let s2 := runSet o.setDefaultThrows s1.1 .dflt
    if s2.2 then fallbackPath o s2.1
    else (s2.1, false)

/-- Which statements of the truncate block of `executeMigration`
(overwrite case) throw.  `resetSequences` and `logMigration` catch
internally and never throw, so only the acquire `SET`, the `TRUNCATE`
and the release `SET` can. -/
structure TruncOracle where
  acquireThrows : Bool
  truncateThrows : Bool
  releaseThrows : Bool
  deriving Repr, DecidableEq

/-- The truncate block:
`SET replica; try { TRUNCATE ...; resetSequences; } finally { SET DEFAULT }`.
The `finally` clause runs on both the normal and the exceptional exit of
the `try`. -/
def truncateBlock (o : TruncOracle) (r0 : Role) : Role × Bool :=
  let s1 := runSet o.acquireThrows r0 .replica
  if s1.2 then (s1.1, true)
  else
    let thrown := o.truncateThrows
    let s2 := runSet o.releaseThrows s1.1 .dflt
    if s2.2 then (s2.1, true) else (s2.1, thrown)

/-!
Section: Batched source reads of `migrateData`
-/

/-- The source-side fetch trace of the `while (true)` loop of
`migrateData`: one `(offset, rows returned)` pair per
`SELECT * LIMIT 500 OFFSET offset` issued.  The loop breaks when a batch
comes back empty, or after processing a batch of fewer than 500 rows;
otherwise it advances the offset by the batch size 500. -/
def migrateDataFetches (src : List Nat) (offset : Nat) : List (Nat × Nat) :=
  if ((src.drop offset).take 500).length = 0 then [(offset, 0)]
  else if h : ((src.drop offset).take 500).length < 500 then
    [(offset, ((src.drop offset).take 500).length)]
  else (offset, 500) :: migrateDataFetches src (offset + 500)
termination_by src.length - offset
decreasing_by
  rename_i h
  simp only [List.length_take, List.length_drop, not_lt] at h
  omega

/-!
Section: Upsert (primary-key resolution and row merge)
-/

/-- Source `pkQuery.rows[0]?.column_name || "id"`: the single conflict column
the engine derives from the `pg_index`/`pg_attribute` query (one row per
primary-key column; only the first row is consulted). -/
def resolvePrimaryKey (pkRows : List String) : String :=
  match pkRows with
  | [] => "id"
  | c :: _ => jsOrStr c "id"

/-- The conflict-target column list the engine passes to
`.onConflict(primaryKey)`: always a single column. -/
def upsertConflictColumns (pkRows : List String) : List String :=
  [resolvePrimaryKey pkRows]

/-- Value of column `k` in a row (first occurrence). -/
def rowGet (row : List (String × JSValue)) (k : String) : Option JSValue :=
  (row.find? (fun kv => kv.1 == k)).map (·.2)

/-- Modelled from the spec: the target-side effect of knex
`insert(row).onConflict(pk).merge()` (§4.4.2 — insert, updating **all**
columns to the incoming values on a conflict of `pk`); the knex library
itself is an external dependency. -/
def upsertRow (pk : String) (target : List (List (String × JSValue)))
    (row : List (String × JSValue)) : List (List (String × JSValue)) :=
  if target.any (fun t => rowGet t pk == rowGet row pk) then
    target.map (fun t => if rowGet t pk == rowGet row pk then row else t)
  else target ++ [row]

/-- Source `upsertData`: read all source rows, prepare each with
`prepareRowForInsert`, upsert it into the target on the resolved
conflict column; a per-row failure (oracle `failures`) is logged and not
counted, and does not abort the table.  Returns the count of successful
upserts and the final target state. -/
def upsertData (pkRows : List String) (isValidJson : String → Bool)
    (jsonColumns arrayColumns : List String)
    (src : List (List (String × JSValue))) (failures : List (String × JSValue) → Bool)
    (target : List (List (String × JSValue))) :
    Nat × List (List (String × JSValue)) :=
  src.foldl
    (fun acc row =>
      let prepared := prepareRowForInsert isValidJson row jsonColumns arrayColumns
      if failures prepared then acc
      else (acc.1 + 1, upsertRow (resolvePrimaryKey pkRows) acc.2 prepared))
    (0, target)

/-!
Section: Migration Coordinator (`executeMigration`)

The per-collection loop body awaits a sequence of database operations;
their outcomes are supplied per collection by a `TableEnv` (an operation
either returns a value or throws with a message).  `migrateSchema`,
`resetSequences`, `copyConstraints` and `logMigration` catch internally
and never throw, so they are modelled as plain results.
-/

/-- The `changes` record returned by `migrateSchema`. -/
structure SchemaChanges where
  tableCreated : Bool
  sequencesCreated : Nat
  columnsAdded : List String
  errors : List String
  deriving Repr, DecidableEq

/-- A side effect of one dispatch, for tracking which operations a rule
performs. -/
inductive Effect where
  | schemaMigrate : Effect
  | truncateTable : Effect
  | resetSeq : Effect
  | copyConstr : Effect
  | dataInsert : Nat → Effect
  | upsertRows : Nat → Effect
  | insertIgnoreRows : Nat → Effect
  deriving Repr, DecidableEq

/-- An effect that moves or destroys data rows on the target. -/
def Effect.isDataMotion : Effect → Bool
  | .truncateTable => true
  | .dataInsert _ => true
  | .upsertRows _ => true
  | .insertIgnoreRows _ => true
  | _ => false

/-- Outcomes of the awaited operations for one collection. -/
structure TableEnv where
  columns : Except String (List ColumnInfo)
  schemaChanges : SchemaChanges
  targetTableExists : Except String Bool
  hasData : Except String Bool
  truncateResult : Except String Unit
  migrateDataResult : Except String Nat
  upsertResult : Except String Nat
  insertIgnoreResult : Except String Nat

/-- One entry of the job's `collections` list, together with the
database behaviour it meets. -/
structure Collection where
  name : String
  rule : Option String
  env : TableEnv

/-- Source `collection.rule || globalRule` (JavaScript `||`: `undefined`,
`null` and the empty string fall back to the global rule). -/
def effectiveRule (c : Collection) (globalRule : String) : String :=
  match c.rule with
  | none => globalRule
  | some r => jsOrStr r globalRule

/-- The `switch (rule)` dispatch of `executeMigration`, lines 435–552:
returns the `rowsMigrated` value together with the effects performed, or
the first exception thrown.  A rule matching no `case` leaves
`rowsMigrated` at its initial `0` and performs nothing (the `switch` has
no `default`). -/
def runRule (rule : String) (env : TableEnv) : Except String (Nat × List Effect) :=
  if rule = "schema" then
    .ok (env.schemaChanges.columnsAdded.length, [.schemaMigrate])
  else if rule = "overwrite" then
    match env.targetTableExists with
    | .error e => .error e
    | .ok tExists =>
      match env.hasData with
      | .error e => .error e
      | .ok hd =>
        match (if hd then env.truncateResult else .ok ()) with
        | .error e => .error e
        | .ok _ =>
          match env.migrateDataResult with
          | .error e => .error e
          | .ok n =>
            .ok (n,
              (if tExists then [] else [Effect.schemaMigrate])
                ++ (if hd then [Effect.truncateTable, Effect.resetSeq] else [])
                ++ [Effect.dataInsert n, Effect.resetSeq, Effect.copyConstr])
  else if rule = "upsert" then
    match env.upsertResult with
    | .error e => .error e
    | .ok n => .ok (n, [.upsertRows n])
  else if rule = "ignore" then
    match env.insertIgnoreResult with
    | .error e => .error e
    | .ok n => .ok (n, [.insertIgnoreRows n])
  else .ok (0, [])

/-- The body of the per-collection `try`: introspect the columns
(`getTableColumns` can throw), classify them, then dispatch on the
effective rule. -/
def bodyOutcome (globalRule : String) (c : Collection) : Except String (Nat × List Effect) :=
  match c.env.columns with
  | .error e => .error e
  | .ok _ => runRule (effectiveRule c globalRule) c.env

/-- One element of the engine's `results` array. -/
structure TableResult where
  collection : String
  rule : String
  rowsMigrated : Option Nat
  status : String
  error : Option String
  deriving Repr, DecidableEq

/-- One iteration of the per-collection loop: on success push
`{collection, rule, rowsMigrated, status: "success"}`; on a caught
exception push `{collection, rule, status: "failed", error}` and
continue. -/
def processCollection (globalRule : String) (c : Collection) : TableResult :=
  match bodyOutcome globalRule c with
  | .ok r => ⟨c.name, effectiveRule c globalRule, some r.1, "success", none⟩
  | .error e => ⟨c.name, effectiveRule c globalRule, none, "failed", some e⟩

/-- The terminal job record written by `executeMigration`. -/
structure JobOutcome where
  status : String
  results : List TableResult
  errorMessage : Option String
  deriving Repr, DecidableEq

/-- Source `executeMigration` after the connection phase: when both connection
records are found, every collection is processed in order and the job
record is updated to `completed` with the aggregated results; when a
connection is missing, the job fails with no table attempted. -/
def executeMigration (connectionsFound : Bool) (globalRule : String)
    (collections : List Collection) : JobOutcome :=
  if connectionsFound then
    ⟨"completed", collections.map (processCollection globalRule), none⟩
  else
    ⟨"failed", [], some "Source or target connection not found"⟩

/-!
Section: Claim theorems
-/

/-- C9: for every list of ColumnDescriptors, column classification marks
a column as JSON exactly when its `data_type` is json or jsonb or its
`udt_name` is json or jsonb, and as ARRAY exactly when its `data_type`
is `ARRAY` or its `udt_name` starts with an underscore. -/
theorem C9_classification (cols : List ColumnInfo) (name : String) :
    (name ∈ getJsonColumns cols ↔
      ∃ col ∈ cols, col.column_name = name ∧
        (col.data_type = "json" ∨ col.data_type = "jsonb" ∨
          col.udt_name = "json" ∨ col.udt_name = "jsonb")) ∧
    (name ∈ getArrayColumns cols ↔
      ∃ col ∈ cols, col.column_name = name ∧
        (col.data_type = "ARRAY" ∨ col.udt_name.startsWith "_" = true)) := by
  constructor
  · simp only [getJsonColumns, List.mem_map, List.mem_filter]
    constructor
    · rintro ⟨col, ⟨hmem, hp⟩, hname⟩
      exact ⟨col, hmem, hname, by simpa [or_assoc] using hp⟩
    · rintro ⟨col, hmem, hname, hp⟩
      exact ⟨col, ⟨hmem, by simpa [or_assoc] using hp⟩, hname⟩
  · simp only [getArrayColumns, List.mem_map, List.mem_filter]
    constructor
    · rintro ⟨col, ⟨hmem, hp⟩, hname⟩
      exact ⟨col, hmem, hname, by simpa using hp⟩
    · rintro ⟨col, hmem, hname, hp⟩
      exact ⟨col, ⟨hmem, by simpa using hp⟩, hname⟩

/-- The numeric emission the claim C7 describes: `numeric(p,s)` with `p`
the catalog `numeric_precision` and `s` the catalog `numeric_scale`, the
defaults 10 and 2 used only when the catalog value is absent. -/
def specNumericSqlType (col : ColumnDetail) : String :=
  "numeric(" ++ toString (col.numeric_precision.getD 10) ++ ","
    ++ toString (col.numeric_scale.getD 2) ++ ")"

/-- A real catalog row for a `numeric(10,0)` column. -/
def numericScaleZeroCol : ColumnDetail :=
  ⟨"amount", "numeric", "numeric", "YES", none, some 10, some 0, none⟩

/-- C7 counterexample: for a column with catalog `numeric_scale = 0`
(present, not absent), the engine emits `numeric(10,2)` — JavaScript
`||` treats the present value `0` as absent — while the claim requires
`numeric(10,0)`. -/
theorem C7_counterexample :
    columnToSqlType numericScaleZeroCol = "numeric(10,2)" ∧
    specNumericSqlType numericScaleZeroCol = "numeric(10,0)" ∧
    columnToSqlType numericScaleZeroCol ≠ specNumericSqlType numericScaleZeroCol := by
  refine ⟨rfl, rfl, ?_⟩
  decide

/-- C7 amended: for every column with `data_type` equal to `numeric` the
emitted type is `numeric(p,s)` where `p` is the catalog
`numeric_precision` and `s` the catalog `numeric_scale`, with 10 and 2
substituted when the catalog value is absent **or zero**. -/
theorem C7_numeric_mapping (col : ColumnDetail) (h : col.data_type = "numeric") :
    ∃ p s : Nat,
      columnToSqlType col = "numeric(" ++ toString p ++ "," ++ toString s ++ ")" ∧
      p = (match col.numeric_precision with
           | none => 10
           | some q => if q = 0 then 10 else q) ∧
      s = (match col.numeric_scale with
           | none => 2
           | some q => if q = 0 then 2 else q) := by
  refine ⟨jsOrNat col.numeric_precision 10, jsOrNat col.numeric_scale 2, ?_, ?_, ?_⟩
  · simp [columnToSqlType, h]
  · cases col.numeric_precision <;> simp [jsOrNat]
  · cases col.numeric_scale <;> simp [jsOrNat]

/-- Witness for C7: the amended mapping evaluated on the concrete
`numeric(10,0)` catalog row. -/
theorem C7_numeric_mapping_witness :
    ∃ p s : Nat,
      columnToSqlType numericScaleZeroCol = "numeric(" ++ toString p ++ "," ++ toString s ++ ")" ∧
      p = (match numericScaleZeroCol.numeric_precision with
           | none => 10
           | some q => if q = 0 then 10 else q) ∧
      s = (match numericScaleZeroCol.numeric_scale with
           | none => 2
           | some q => if q = 0 then 2 else q) :=
  C7_numeric_mapping numericScaleZeroCol rfl

/-- C10: a TableTask whose effective rule is outside
schema/overwrite/upsert/ignore matches no `case` of the dispatch
`switch`: no operation is performed, yet the result records the table
with status success and `rowsMigrated` 0. -/
theorem C10_unknown_rule (g : String) (c : Collection) (cols : List ColumnInfo)
    (hcols : c.env.columns = .ok cols)
    (h : effectiveRule c g ∉ (["schema", "overwrite", "upsert", "ignore"] : List String)) :
    processCollection g c = ⟨c.name, effectiveRule c g, some 0, "success", none⟩ ∧
    runRule (effectiveRule c g) c.env = .ok (0, []) := by
  simp only [List.mem_cons, List.mem_singleton, not_or] at h
  obtain ⟨h1, h2, h3, h4⟩ := h
  have hrun : runRule (effectiveRule c g) c.env = .ok (0, []) := by
    simp [runRule, h1, h2, h3, h4]
  exact ⟨by simp [processCollection, bodyOutcome, hcols, hrun], hrun⟩

/-- A table environment where every operation succeeds trivially. -/
def quietEnv : TableEnv :=
  ⟨.ok [], ⟨false, 0, [], []⟩, .ok false, .ok false, .ok (), .ok 0, .ok 0, .ok 0⟩

/-- A collection whose per-table rule is the unknown string `bogus`. -/
def bogusCollection : Collection := ⟨"t", some "bogus", quietEnv⟩

/-- Witness for C10: the unknown rule `bogus` yields a success result
with zero rows and an empty dispatch. -/
theorem C10_unknown_rule_witness :
    processCollection "overwrite" bogusCollection =
      ⟨"t", effectiveRule bogusCollection "overwrite", some 0, "success", none⟩ ∧
    runRule (effectiveRule bogusCollection "overwrite") bogusCollection.env = .ok (0, []) :=
  C10_unknown_rule "overwrite" bogusCollection [] rfl (by decide)

/-- C8: under the schema rule the recorded `rowsMigrated` equals the
number of columns the Schema Replayer added (zero when the target
already matches), and the dispatch performs no data-moving operation. -/
theorem C8_schema_rule (g : String) (c : Collection) (cols : List ColumnInfo)
    (hcols : c.env.columns = .ok cols) (hrule : effectiveRule c g = "schema") :
    processCollection g c =
      ⟨c.name, "schema", some c.env.schemaChanges.columnsAdded.length, "success", none⟩ ∧
    ∀ n effects, runRule (effectiveRule c g) c.env = .ok (n, effects) →
      n = c.env.schemaChanges.columnsAdded.length ∧
      ∀ e ∈ effects, e.isDataMotion = false := by
  have hrun : runRule (effectiveRule c g) c.env =
      .ok (c.env.schemaChanges.columnsAdded.length, [.schemaMigrate]) := by
    simp [runRule, hrule]
  refine ⟨?_, ?_⟩
  · rw [hrule] at hrun
    simp [processCollection, bodyOutcome, hcols, hrule, hrun]
  intro n effects h
  rw [hrun] at h
  obtain ⟨h1, h2⟩ : n = c.env.schemaChanges.columnsAdded.length ∧
      effects = [Effect.schemaMigrate] := by
    simpa [eq_comm] using h
  subst h1; subst h2
  exact ⟨rfl, by intro e he; simp at he; subst he; rfl⟩

/-- A schema-rule collection whose replay added two columns. -/
def schemaCollection : Collection :=
  ⟨"t", some "schema",
    ⟨.ok [], ⟨false, 0, ["flag", "extra"], []⟩, .ok true, .ok false, .ok (), .ok 0, .ok 0, .ok 0⟩⟩

/-- Witness for C8: the schema rule on a concrete collection reports the
2 added columns, not a row count, and performs no data motion. -/
theorem C8_schema_rule_witness :
    processCollection "overwrite" schemaCollection =
      ⟨"t", "schema", some schemaCollection.env.schemaChanges.columnsAdded.length,
        "success", none⟩ ∧
    ∀ n effects,
      runRule (effectiveRule schemaCollection "overwrite") schemaCollection.env =
        .ok (n, effects) →
      n = schemaCollection.env.schemaChanges.columnsAdded.length ∧
      ∀ e ∈ effects, e.isDataMotion = false :=
  C8_schema_rule "overwrite" schemaCollection [] rfl rfl

/-- A batch iteration in which the batch insert throws and the
fallback's own `SET session_replication_role = replica` statement then
throws (e.g. the connection drops). -/
def c5EscapeOracle : BatchOracle := ⟨false, true, false, true, [], false⟩

/-- C5 counterexample: in `migrateData` the batch/fallback block has no
`finally`; when the batch insert throws and the fallback's `SET replica`
statement then throws, the exception escapes with the connection's role
left at `replica`, so the role is not restored to DEFAULT on that exit
path. -/
theorem C5_counterexample :
    (processBatch c5EscapeOracle Role.dflt).1 = Role.replica ∧
    (processBatch c5EscapeOracle Role.dflt).2 = true ∧
    Role.replica ≠ Role.dflt := by decide

/-- C5 amended: the truncate block (`try … finally`) restores the role
on every exit path, including an exception from `TRUNCATE`, whenever its
own `SET` statements succeed; the batch/fallback block of `migrateData`
restores the role on every exit path — including a failing batch insert
and failing per-row inserts — provided none of its four
`SET session_replication_role` statements itself throws. -/
theorem C5_role_scoping (o : BatchOracle) (t : TruncOracle) (r0 r1 : Role)
    (ht1 : t.acquireThrows = false) (ht2 : t.releaseThrows = false)
    (h1 : o.setReplicaThrows = false) (h2 : o.setDefaultThrows = false)
    (h3 : o.fbSetReplicaThrows = false) (h4 : o.fbSetDefaultThrows = false) :
    (truncateBlock t r0).1 = Role.dflt ∧ (processBatch o r1).1 = Role.dflt := by
  constructor
  · simp [truncateBlock, runSet, ht1, ht2]
  · cases hI : o.insertThrows <;>
      simp [processBatch, fallbackPath, runSet, h1, h2, h3, h4, hI]

/-- A truncate block whose `TRUNCATE` throws, and a batch whose insert
throws with one per-row failure in the fallback; all `SET` statements
succeed. -/
def c5TruncOracle : TruncOracle := ⟨false, true, false⟩

/-- Companion batch oracle for the C5 witness. -/
def c5FallbackOracle : BatchOracle := ⟨false, true, false, false, [true, false], false⟩

/-- Witness for C5: both blocks restore the role on concrete exceptional
paths when the `SET` statements succeed. -/
theorem C5_role_scoping_witness :
    (truncateBlock c5TruncOracle Role.dflt).1 = Role.dflt ∧
    (processBatch c5FallbackOracle Role.dflt).1 = Role.dflt :=
  C5_role_scoping c5FallbackOracle c5TruncOracle Role.dflt Role.dflt rfl rfl rfl rfl rfl rfl

/-- C3 counterexample: in the Type Preparer, a JSON/JSONB column whose
value fails `JSON.stringify` is substituted with the literal string
`'{}'`, not with null as the claim states. -/
theorem C3_counterexample :
    prepareRowForInsert (fun _ => true) [("data", JSValue.obj none)] ["data"] [] =
      [("data", JSValue.str "\x7b\x7d")] ∧
    JSValue.str "\x7b\x7d" ≠ JSValue.jsNull := by decide

/-- C3 amended: when JSON serialization of a value fails, a JSON/JSONB
column receives the literal `'{}'` while a column that is neither JSON
nor ARRAY receives null; in both cases the failure only affects the
offending column — the row is never aborted (the prepared row keeps one
entry per input entry, with the same keys in the same order). -/
theorem C3_serialization_failure (vj : String → Bool)
    (jsonColumns arrayColumns : List String) (row : List (String × JSValue))
    (key : String) (v : JSValue) :
    (jsonColumns.contains key = true → isObjectType v = true → jsStringify v = none →
      prepareValue vj jsonColumns arrayColumns key v = .str "\x7b\x7d") ∧
    (jsonColumns.contains key = false → arrayColumns.contains key = false →
      isObjectType v = true → isDate v = false → jsStringify v = none →
      prepareValue vj jsonColumns arrayColumns key v = .jsNull) ∧
    (prepareRowForInsert vj row jsonColumns arrayColumns).map Prod.fst =
      row.map Prod.fst := by
  refine ⟨?_, ?_, ?_⟩
  · intro h1 h2 h3
    cases v <;> simp_all [prepareValue, isObjectType, jsStringify]
  · intro h1 h2 h3 h4 h5
    cases v <;> simp_all [prepareValue, isObjectType, isDate, jsStringify]
  · simp [prepareRowForInsert]

/-- Witness for C3: concrete instances of the three amended facts. -/
theorem C3_serialization_failure_witness :
    prepareValue (fun _ => true) ["data"] [] "data" (JSValue.obj none) =
      .str "\x7b\x7d" ∧
    prepareValue (fun _ => true) [] [] "meta" (JSValue.obj none) = .jsNull ∧
    (prepareRowForInsert (fun _ => true) [("id", JSValue.num 1)] ["data"] []).map
        Prod.fst = [("id", JSValue.num 1)].map Prod.fst := by
  have h1 := C3_serialization_failure (fun _ => true) ["data"] []
    [("id", JSValue.num 1)] "data" (JSValue.obj none)
  have h2 := C3_serialization_failure (fun _ => true) [] []
    [("id", JSValue.num 1)] "meta" (JSValue.obj none)
  exact ⟨h1.1 (by decide) rfl rfl, h2.2.1 (by decide) (by decide) rfl rfl rfl, h1.2.2⟩

/-- C1: with both connections found, `executeMigration` appends exactly
one TableResult per collection, in input order; a collection whose body
throws yields a failed TableResult carrying the error while every other
collection is still processed, and the job terminates with status
`completed`. -/
theorem C1_per_table_isolation (g : String) (colls : List Collection) :
    (executeMigration true g colls).status = "completed" ∧
    (executeMigration true g colls).results.length = colls.length ∧
    (executeMigration true g colls).results.map (·.collection) =
      colls.map (·.name) ∧
    ∀ i (h : i < colls.length) (h2 : i < (executeMigration true g colls).results.length),
      (∀ e, bodyOutcome g (colls.get ⟨i, h⟩) = .error e →
        (executeMigration true g colls).results.get ⟨i, h2⟩ =
          ⟨(colls.get ⟨i, h⟩).name, effectiveRule (colls.get ⟨i, h⟩) g,
            none, "failed", some e⟩) ∧
      (∀ n effects, bodyOutcome g (colls.get ⟨i, h⟩) = .ok (n, effects) →
        (executeMigration true g colls).results.get ⟨i, h2⟩ =
          ⟨(colls.get ⟨i, h⟩).name, effectiveRule (colls.get ⟨i, h⟩) g,
            some n, "success", none⟩) := by
  have hres : (executeMigration true g colls).results =
      colls.map (processCollection g) := rfl
  have hcol : ∀ c, (processCollection g c).collection = c.name := by
    intro c; unfold processCollection; cases bodyOutcome g c <;> rfl
  refine ⟨rfl, by simp [hres], ?_, ?_⟩
  · simp only [hres, List.map_map]
    exact List.map_congr_left (fun c _ => hcol c)
  · intro i h h2
    have hget : (executeMigration true g colls).results.get ⟨i, h2⟩ =
        processCollection g (colls.get ⟨i, h⟩) := by
      simp [hres, List.get_eq_getElem, List.getElem_map]
    constructor
    · intro e he
      rw [hget]
      unfold processCollection
      rw [he]
    · intro n effects he
      rw [hget]
      unfold processCollection
      rw [he]

/-- A collection whose column introspection throws (e.g. the table does
not exist on the source side). -/
def failingCollection : Collection :=
  ⟨"bad", none,
    ⟨.error "relation missing", ⟨false, 0, [], []⟩, .ok false, .ok false,
      .ok (), .ok 0, .ok 0, .ok 0⟩⟩

/-- A collection processed successfully under the `ignore` rule. -/
def ignoreCollection : Collection :=
  ⟨"good", some "ignore",
    ⟨.ok [], ⟨false, 0, [], []⟩, .ok false, .ok false, .ok (), .ok 0,
      .ok 0, .ok 7⟩⟩

/-- Witness for C1: a two-table job whose first table throws; the job
completes with one result per table, the first failed and the second
successful. -/
theorem C1_per_table_isolation_witness :
    (executeMigration true "overwrite" [failingCollection, ignoreCollection]).status =
      "completed" ∧
    (executeMigration true "overwrite" [failingCollection, ignoreCollection]).results.get
        ⟨0, by decide⟩ = ⟨"bad", "overwrite", none, "failed", some "relation missing"⟩ ∧
    (executeMigration true "overwrite" [failingCollection, ignoreCollection]).results.get
        ⟨1, by decide⟩ = ⟨"good", "ignore", some 7, "success", none⟩ := by
  have h := C1_per_table_isolation "overwrite" [failingCollection, ignoreCollection]
  refine ⟨h.1, ?_, ?_⟩
  · have hx := (h.2.2.2 0 (by decide) (by decide)).1 "relation missing" rfl
    simpa using hx
  · have hx := (h.2.2.2 1 (by decide) (by decide)).2 7 [.insertIgnoreRows 7] rfl
    simpa using hx

/-- The conflict target claim C2 describes: all primary-key columns
returned by the catalog query, falling back to `id` when there are none. -/
def specConflictColumns (pkRows : List String) : List String :=
  if pkRows.isEmpty then ["id"] else pkRows

/-- C2 counterexample: for a composite primary key the engine's conflict
target is only the first catalog row (`pkQuery.rows[0]`), not the full
primary-key column set required by the claim. -/
theorem C2_counterexample :
    upsertConflictColumns ["warehouse_id", "product_id"] = ["warehouse_id"] ∧
    specConflictColumns ["warehouse_id", "product_id"] =
      ["warehouse_id", "product_id"] ∧
    upsertConflictColumns ["warehouse_id", "product_id"] ≠
      specConflictColumns ["warehouse_id", "product_id"] := by decide

/-- C2 amended: the upsert rule resolves a **single** conflict column —
the first row of the `pg_index`/`pg_attribute` query, falling back to
`id` when the table has no primary key — and for each prepared source
row performs an insert that, on a conflict of that one column, replaces
every column of the conflicting target row with the incoming values;
per-row failures are not counted and each successful row counts once. -/
theorem C2_upsert_single_pk (pkRows : List String) (vj : String → Bool)
    (jsonCols arrayCols : List String)
    (src tgt : List (List (String × JSValue))) (pk : String)
    (row : List (String × JSValue)) :
    upsertConflictColumns pkRows = [jsOrStr (pkRows.headD "id") "id"] ∧
    ((¬ ∃ t ∈ tgt, rowGet t pk = rowGet row pk) →
      upsertRow pk tgt row = tgt ++ [row]) ∧
    ((∃ t ∈ tgt, rowGet t pk = rowGet row pk) →
      upsertRow pk tgt row =
        tgt.map (fun t => if rowGet t pk == rowGet row pk then row else t) ∧
      ∀ t ∈ upsertRow pk tgt row, rowGet t pk = rowGet row pk → t = row) ∧
    (upsertData pkRows vj jsonCols arrayCols src (fun _ => false) tgt).1 =
      src.length := by
  refine ⟨?_, ?_, ?_, ?_⟩
  · cases pkRows <;> simp [upsertConflictColumns, resolvePrimaryKey, jsOrStr]
  · intro h
    have hany : tgt.any (fun t => rowGet t pk == rowGet row pk) = false := by
      cases hb : tgt.any (fun t => rowGet t pk == rowGet row pk) with
      | false => rfl
      | true => exact absurd (by simpa [List.any_eq_true] using hb) h
    simp [upsertRow, hany]
  · intro h
    have hany : tgt.any (fun t => rowGet t pk == rowGet row pk) = true := by
      simp only [List.any_eq_true, beq_iff_eq]
      simpa using h
    have hmap : upsertRow pk tgt row =
        tgt.map (fun t => if rowGet t pk == rowGet row pk then row else t) := by
      simp [upsertRow, hany]
    refine ⟨hmap, ?_⟩
    intro t ht hpk
    rw [hmap] at ht
    obtain ⟨t0, _, rfl⟩ := List.mem_map.mp ht
    by_cases hc : rowGet t0 pk == rowGet row pk
    · simp [hc]
    · exfalso
      simp only [hc, if_false] at hpk
      exact hc (beq_iff_eq.mpr hpk)
  · have haux : ∀ (l : List (List (String × JSValue))) (acc : Nat × List (List (String × JSValue))),
        (l.foldl (fun acc row =>
          (acc.1 + 1,
            upsertRow (resolvePrimaryKey pkRows) acc.2
              (prepareRowForInsert vj row jsonCols arrayCols))) acc).1 =
          acc.1 + l.length := by
      intro l
      induction l with
      | nil => intro acc; simp
      | cons r rs ih =>
        intro acc
        simp only [List.foldl_cons, List.length_cons, ih]
        omega
    simpa [upsertData] using haux src (0, tgt)

/-- Witness for C2: a composite-key table; the conflict column is the
first key column only, a non-conflicting row is appended, and one source
row counts once. -/
theorem C2_upsert_single_pk_witness :
    upsertConflictColumns ["warehouse_id", "product_id"] =
      [jsOrStr ((["warehouse_id", "product_id"] : List String).headD "id") "id"] ∧
    upsertRow "warehouse_id" [[("warehouse_id", JSValue.num 2)]]
        [("warehouse_id", JSValue.num 1)] =
      [[("warehouse_id", JSValue.num 2)], [("warehouse_id", JSValue.num 1)]] ∧
    (upsertData ["warehouse_id", "product_id"] (fun _ => true) [] []
        [[("warehouse_id", JSValue.num 1)]] (fun _ => false)
        [[("warehouse_id", JSValue.num 2)]]).1 = 1 := by
  have h := C2_upsert_single_pk ["warehouse_id", "product_id"] (fun _ => true) [] []
    [[("warehouse_id", JSValue.num 1)]] [[("warehouse_id", JSValue.num 2)]]
    "warehouse_id" [("warehouse_id", JSValue.num 1)]
  exact ⟨h.1, by simpa using h.2.1 (by decide), by simpa using h.2.2.2⟩

/-- Closed form of the fetch trace: for a source of `n` rows the loop
issues `n / 500 + 1` fetches; the `i`-th fetch uses `OFFSET 500 * i` and
returns `min 500 (n - 500 * i)` rows. -/
theorem migrateDataFetches_eq (src : List Nat) (offset : Nat) :
    migrateDataFetches src offset =
      (List.range ((src.length - offset) / 500 + 1)).map
        (fun i => (offset + 500 * i, min 500 (src.length - offset - 500 * i))) := by
  suffices H : ∀ n offset, src.length - offset = n → migrateDataFetches src offset =
      (List.range ((src.length - offset) / 500 + 1)).map
        (fun i => (offset + 500 * i, min 500 (src.length - offset - 500 * i))) by
    exact H _ offset rfl
  intro n
  induction n using Nat.strong_induction_on with
  | _ n ih =>
    intro offset hoff
    rw [migrateDataFetches]
    have hlen : ((src.drop offset).take 500).length = min 500 (src.length - offset) := by
      simp [List.length_take, List.length_drop]
    by_cases h0 : ((src.drop offset).take 500).length = 0
    · rw [if_pos h0]
      rw [hlen] at h0
      have hz : src.length - offset = 0 := by omega
      simp [hz, List.range_succ, List.range_zero]
    · rw [if_neg h0]
      by_cases h1 : ((src.drop offset).take 500).length < 500
      · rw [dif_pos h1]
        rw [hlen] at h0 h1
        have hdiv : (src.length - offset) / 500 = 0 := Nat.div_eq_of_lt (by omega)
        simp [hdiv, hlen, List.range_succ, List.range_zero]
      · rw [dif_neg h1]
        rw [hlen] at h0 h1
        have h500 : 500 ≤ src.length - offset := by omega
        have hdiv : (src.length - offset) / 500 = (src.length - offset - 500) / 500 + 1 :=
          Nat.div_eq_sub_div (by omega) h500
        have hrec := ih (src.length - (offset + 500)) (by omega) (offset + 500) rfl
        rw [hrec, hdiv]
        conv_rhs => rw [List.range_succ_eq_map, List.map_cons, List.map_map]
        have hsub : src.length - (offset + 500) = src.length - offset - 500 := by omega
        rw [hsub]
        simp only [List.cons.injEq]
        constructor
        · have hm : min 500 (src.length - offset) = 500 := Nat.min_eq_left h500
          simp [hm]
        · apply List.map_congr_left
          intro a _
          simp only [Function.comp_apply, Prod.mk.injEq]
          constructor
          · omega
          · omega

/-- C6: the overwrite loop reads the source with `LIMIT 500 OFFSET k`,
`k = 0, 500, 1000, …`; every non-final batch has exactly 500 rows, the
loop terminates precisely at the first batch of fewer than 500 rows, and
a source of 501 rows causes exactly two source-side fetches. -/
theorem C6_batch_fetches (src : List Nat) :
    migrateDataFetches src 0 =
      (List.range (src.length / 500 + 1)).map
        (fun i => (500 * i, min 500 (src.length - 500 * i))) ∧
    (∀ i (h2 : i < (migrateDataFetches src 0).length),
      (((migrateDataFetches src 0).get ⟨i, h2⟩).2 < 500 ↔ i = src.length / 500)) ∧
    (src.length = 501 → migrateDataFetches src 0 = [(0, 500), (500, 1)]) := by
  have h := migrateDataFetches_eq src 0
  simp only [Nat.sub_zero, Nat.zero_add] at h
  refine ⟨h, ?_, ?_⟩
  · intro i h2
    have hlen2 : (migrateDataFetches src 0).length = src.length / 500 + 1 := by
      rw [h]; simp
    have hi : i < src.length / 500 + 1 := by omega
    have hget : (migrateDataFetches src 0).get ⟨i, h2⟩ =
        (500 * i, min 500 (src.length - 500 * i)) := by
      rw [List.get_of_eq h ⟨i, h2⟩]
      simp [List.get_eq_getElem, List.getElem_map, List.getElem_range]
    rw [hget]
    constructor
    · intro hlt
      simp only [lt_min_iff] at hlt
      omega
    · intro heq
      subst heq
      have : src.length - 500 * (src.length / 500) = src.length % 500 := by omega
      rw [this]
      have : src.length % 500 < 500 := Nat.mod_lt _ (by omega)
      omega
  · intro h501
    rw [h, h501]
    decide

/-- Witness for C6: a 501-row source is fetched in exactly two batches
(offsets 0 and 500, sizes 500 and 1), and only the final batch is
shorter than 500. -/
theorem C6_batch_fetches_witness :
    migrateDataFetches (List.replicate 501 0) 0 = [(0, 500), (500, 1)] ∧
    (((migrateDataFetches (List.replicate 501 0) 0).get
        ⟨1, by rw [(C6_batch_fetches (List.replicate 501 0)).2.2
          (by rw [List.length_replicate])]; decide⟩).2 < 500 ↔
      1 = (List.replicate 501 0).length / 500) := by
  have h := C6_batch_fetches (List.replicate 501 0)
  exact ⟨h.2.2 (by rw [List.length_replicate]), h.2.1 1 _⟩

/-- The character sequence of the emitted literal after the opening
brace, for a list of string elements: each element double-quoted with
its quotes escaped, elements separated by commas, closed by `}`. -/
def pgBody : List String → List Char
  | [] => ['\x7d']
  | e :: [] => '"' :: (pgEscapeList e.data ++ ['"', '\x7d'])
  | e :: es => '"' :: (pgEscapeList e.data ++ '"' :: ',' :: pgBody es)

/-- One-step unfolding of `pgParseQuoted` on a cons cell (the generated
equations split on the tail's shape; this lemma re-fuses them). -/
theorem pgParseQuoted_cons (c : Char) (rest acc : List Char) :
    pgParseQuoted (c :: rest) acc =
      if c = '"' then some (String.mk acc.reverse, rest)
      else if c = '\\' then
        (match rest with
         | [] => none
         | c2 :: rest2 => pgParseQuoted rest2 (c2 :: acc))
      else pgParseQuoted rest (c :: acc) := by
  cases rest with
  | nil => rw [pgParseQuoted.eq_2]
  | cons r rs => rw [pgParseQuoted.eq_3]

/-- Parsing a quoted body inverts quote-escaping, for element texts that
contain no backslash. -/
theorem pgParseQuoted_escape (cs : List Char) (hne : '\\' ∉ cs) :
    ∀ acc rest, pgParseQuoted (pgEscapeList cs ++ '"' :: rest) acc =
      some (String.mk (acc.reverse ++ cs), rest) := by
  induction cs with
  | nil =>
    intro acc rest
    show pgParseQuoted ('"' :: rest) acc = _
    rw [pgParseQuoted_cons]
    simp
  | cons c cs ih =>
    intro acc rest
    have hc : c ≠ '\\' := fun h => hne (h ▸ List.mem_cons_self c cs)
    have hcs : '\\' ∉ cs := fun h => hne (List.mem_cons_of_mem _ h)
    by_cases hq : c = '"'
    · subst hq
      show pgParseQuoted ('\\' :: '"' :: (pgEscapeList cs ++ '"' :: rest)) acc = _
      rw [pgParseQuoted_cons]
      simp only [if_neg (by decide : ¬('\\' = '"')), if_pos rfl]
      rw [ih hcs]
      simp [List.append_assoc]
    · rw [show pgEscapeList (c :: cs) = c :: pgEscapeList cs from by
        simp [pgEscapeList, hq]]
      rw [List.cons_append, pgParseQuoted_cons]
      simp only [if_neg hq, if_neg hc]
      rw [ih hcs]
      simp [List.append_assoc]

/-- The printed body of a non-empty element list parses back to exactly
those elements, given enough fuel and no backslashes. -/
theorem pgParseItems_body : ∀ (es : List String) (e : String) (fuel : Nat),
    es.length < fuel → (∀ x ∈ e :: es, '\\' ∉ x.data) →
    pgParseItems fuel (pgBody (e :: es)) = some (e :: es) := by
  intro es
  induction es with
  | nil =>
    intro e fuel hf hok
    obtain ⟨f, rfl⟩ : ∃ f, fuel = f + 1 := ⟨fuel - 1, by omega⟩
    show pgParseItems (f + 1) ('"' :: (pgEscapeList e.data ++ ['"', '\x7d'])) = some [e]
    rw [pgParseItems.eq_3,
      pgParseQuoted_escape e.data (hok e (List.mem_cons_self e [])) [] ['\x7d']]
    rfl
  | cons x xs ih =>
    intro e fuel hf hok
    obtain ⟨f, rfl⟩ : ∃ f, fuel = f + 1 := ⟨fuel - 1, by omega⟩
    show pgParseItems (f + 1)
        ('"' :: (pgEscapeList e.data ++ '"' :: ',' :: pgBody (x :: xs))) =
      some (e :: x :: xs)
    rw [pgParseItems.eq_3,
      pgParseQuoted_escape e.data (hok e (List.mem_cons_self e (x :: xs))) []
        (',' :: pgBody (x :: xs))]
    have hxs : ∀ y ∈ x :: xs, '\\' ∉ y.data := fun y hy =>
      hok y (List.mem_cons_of_mem _ hy)
    show Option.map (fun l => String.mk ([].reverse ++ e.data) :: l)
        (pgParseItems f (pgBody (x :: xs))) = some (e :: x :: xs)
    rw [ih x f (by simp only [List.length_cons] at hf; omega) hxs]
    rfl

/-- Element count is bounded by the printed body's length (fuel bound). -/
theorem pgBody_length : ∀ (es : List String) (e : String),
    es.length < (pgBody (e :: es)).length := by
  intro es
  induction es with
  | nil => intro e; simp [pgBody]
  | cons x xs ih =>
    intro e
    have := ih x
    simp only [pgBody, List.length_cons, List.length_append] at *
    omega

/-- The emitted literal's characters are the opening brace followed by
the printed body. -/
theorem pgArrayLiteral_data : ∀ (elems : List String),
    (pgArrayLiteral (elems.map JSPrim.pstr)).data = '\x7b' :: pgBody elems := by
  have helem : ∀ (t : String),
      (pgElem (JSPrim.pstr t)).data = '"' :: (pgEscapeList t.data ++ ['"']) := by
    intro t
    show ("\"" ++ pgEscape t ++ "\"").data = _
    simp only [String.data_append]
    rfl
  have hjoin : ∀ (elems : List String),
      (joinComma ((elems.map JSPrim.pstr).map pgElem)).data ++ ['\x7d'] = pgBody elems := by
    intro elems
    induction elems with
    | nil => simp [joinComma, pgBody]
    | cons e es ih =>
      cases es with
      | nil =>
        simp only [List.map_cons, List.map_nil, joinComma, pgBody]
        rw [helem e]
        simp [List.append_assoc]
      | cons x xs =>
        simp only [List.map_cons, joinComma, pgBody]
        simp only [String.data_append, helem e,
          show (",").data = [','] from rfl]
        simp only [List.map_cons] at ih
        simp only [List.append_assoc, List.cons_append, List.nil_append]
        rw [show ((joinComma (pgElem (JSPrim.pstr x) ::
            List.map pgElem (List.map JSPrim.pstr xs))).data ++ ['\x7d'])
          = pgBody (x :: xs) from ih]
  intro elems
  unfold pgArrayLiteral
  simp only [String.data_append]
  simp only [List.append_assoc]
  rw [hjoin elems]
  rfl

/-- C4 counterexample: the Type Preparer escapes only double quotes, not
backslashes; a text element containing a backslash produces a literal
that PostgreSQL parses to a *different* element (the backslash is eaten
as an escape), so the round-trip is not the identity. -/
theorem C4_counterexample :
    pgParseArray (pgArrayLiteral [JSPrim.pstr "a\\b"]) = some ["ab"] ∧
    (some ["ab"] : Option (List String)) ≠ some ["a\\b"] := by decide

/-- C4 amended: for an ARRAY column holding a native array of text
elements **containing no backslash** (embedded double quotes are fine),
the Type Preparer emits the PostgreSQL array literal and that literal
parses back to exactly the original elements. -/
theorem C4_array_roundtrip (vj : String → Bool) (jsonCols arrayCols : List String)
    (key : String) (elems : List String)
    (hjson : jsonCols.contains key = false) (harr : arrayCols.contains key = true)
    (hbs : ∀ x ∈ elems, '\\' ∉ x.data) :
    prepareValue vj jsonCols arrayCols key (.arr (elems.map .pstr)) =
      .str (pgArrayLiteral (elems.map .pstr)) ∧
    pgParseArray (pgArrayLiteral (elems.map .pstr)) = some elems := by
  have hj : ¬ key ∈ jsonCols := by simpa using hjson
  have ha : key ∈ arrayCols := by simpa using harr
  constructor
  · simp [prepareValue, hj, ha]
  · rw [pgParseArray]
    rw [pgArrayLiteral_data elems]
    cases elems with
    | nil => rfl
    | cons e es =>
      simp only [if_pos rfl]
      rw [if_neg (show ¬ pgBody (e :: es) = ['\x7d'] by cases es <;> simp [pgBody])]
      exact pgParseItems_body es e (pgBody (e :: es)).length (pgBody_length es e) hbs

/-- Witness for C4: a two-element text array with an embedded double
quote survives the round-trip. -/
theorem C4_array_roundtrip_witness :
    prepareValue (fun _ => true) [] ["tags"] "tags"
        (.arr ((["a\"b", "c"] : List String).map .pstr)) =
      .str (pgArrayLiteral ((["a\"b", "c"] : List String).map .pstr)) ∧
    pgParseArray (pgArrayLiteral ((["a\"b", "c"] : List String).map .pstr)) =
      some ["a\"b", "c"] :=
  C4_array_roundtrip (fun _ => true) [] ["tags"] "tags" ["a\"b", "c"] rfl rfl (by decide)

end BulkMigration
